import Mathlib

/-
Shallow embedding of the nft-tracker repository (Go), covering:
  - src/pkg/models/nftModel.go        : NFT document, CreateUpdateNFT (Mongo upsert),
                                        BigIntToInt
  - src/pkg/services/transferEventTracker.go :
      decodeTransferLog, processTransferLog, fetchNewLogs, TrackTransferEvents

Modelling conventions:
  - 32-byte topic words, addresses and hashes are Nat values; Go big.Int is Int.
  - Go `int` is modelled as a 64-bit integer (the build targets a 64-bit
    platform), kept as Lean Int with explicit 2^63 bounds.
  - The MongoDB collection is a list of documents; UpdateOne with an equality
    filter updates the first matching document; upsert inserts the merge of
    the filter, $set and $setOnInsert fields when no document matches.
  - A Go runtime panic (e.g. index out of range) is the `crash` outcome: it
    kills the goroutine and hence the process (main.go starts the tracker
    with `go func` and no recover).
  - External collaborators (geth RPC, wall clock, Mongo availability) are
    environment inputs: each poll tick carries the HeaderByNumber result and
    the FilterLogs result; each processed log carries the wall-clock value
    used for time.Now() and whether the Mongo UpdateOne call fails.
-/

namespace NftTracker

/-- One raw log entry (go-ethereum types.Log).  Only the fields this
repository reads are modelled: Address, Topics, Data, TxHash
(transferEventTracker.go lines 193-195, 271, 276-278). -/
structure RawLog where
  address : Nat
  topics : List Nat
  data : List Nat
  txHash : Nat
deriving DecidableEq, Repr

/-- The NFT struct of nftModel.go lines 20-28.  The Mongo ObjectID field
`ID` is database-generated and never set by this code, so it is not
modelled; `TokenUri` exists on the struct but is never assigned by the
tracker (it stays the zero value ""). -/
structure NFT where
  nftID : Int
  ownerAddress : String
  contractAddress : String
  tokenUri : String
  txHash : String
  timeStamp : Nat
deriving DecidableEq, Repr

/-- A stored Mongo document as written by CreateUpdateNFT: the upsert
writes exactly the fields nftId ($setOnInsert and filter), ownerAddress,
contractAddress, txHash, timeStamp ($set) — nftModel.go lines 56-67. -/
structure OwnershipRecord where
  nftId : Int
  ownerAddress : String
  contractAddress : String
  txHash : String
  timeStamp : Nat
deriving DecidableEq, Repr

/-- The NFT collection: a list of documents in insertion order. -/
abbrev Store := List OwnershipRecord

/-- The $set part of the update document (nftModel.go lines 58-63):
replaces the four non-key fields, leaves nftId untouched. -/
def setFields (nft : NFT) (r : OwnershipRecord) : OwnershipRecord :=
  { r with
    ownerAddress := nft.ownerAddress
    contractAddress := nft.contractAddress
    txHash := nft.txHash
    timeStamp := nft.timeStamp }

/-- The document inserted by the upsert branch when no document matches the
filter: filter key + $setOnInsert nftId + $set fields (nftModel.go 56-67). -/
def insertDoc (nft : NFT) : OwnershipRecord :=
  { nftId := nft.nftID
    ownerAddress := nft.ownerAddress
    contractAddress := nft.contractAddress
    txHash := nft.txHash
    timeStamp := nft.timeStamp }

/-- Mongo UpdateOne on an equality filter: apply `f` to the first document
whose nftId equals `key`, leave the rest unchanged. -/
def updateFirst (key : Int) (f : OwnershipRecord → OwnershipRecord) :
    Store → Store
  | [] => []
  | r :: rs =>
    if r.nftId == key then f r :: rs else r :: updateFirst key f rs

/-- CreateUpdateNFT (nftModel.go lines 52-76): UpdateOne with filter
bson.M(nftId = nft.NftID), update $set of the four non-key fields plus
$setOnInsert of nftId, and upsert enabled.  With a matching document the
first match has its $set fields replaced; with no match the merged
document is inserted (appended). -/
def CreateUpdateNFT (nft : NFT) (s : Store) : Store :=
  if s.any (fun r => r.nftId == nft.nftID) then
    updateFirst nft.nftID (setFields nft) s
  else
    s ++ [insertDoc nft]

/-- Go bitwise complement on int: ^x = -x-1; nftModel.go line 146 uses
^int(0), which is -1. -/
def goBitNot (x : Int) : Int := -x - 1

/-- Smallest int64 value; also the Go constant -1<<63 (nftModel.go 146). -/
def int64Min : Int := -(2 ^ 63)

/-- Largest int64 value. -/
def int64Max : Int := 2 ^ 63 - 1

/-- BigIntToInt (nftModel.go lines 143-151).  b.IsInt64() is the int64
bounds check; the inner condition is the source's
`i64 >= int64(^int(0)) || i64 <= int64(-1<<63)`, i.e. i64 ≥ -1 or
i64 = int64Min; any other path falls through to the error return. -/
def BigIntToInt (b : Int) : Except String Int :=
  if int64Min ≤ b ∧ b ≤ int64Max then
    if goBitNot 0 ≤ b ∨ b ≤ int64Min then
      Except.ok b
    else
      Except.error "big.Int value is out of int range"
  else
    Except.error "big.Int value is out of int range"

/-- Keccak-256 hash of "Transfer(address,address,uint256)", computed once
by crypto.Keccak256Hash at transferEventTracker.go lines 82-83.  The hash
function itself is not re-implemented; its well-known value is taken as a
constant.  The decoder never inspects topics[0], so no claim depends on
this value beyond it being the topic filter of every query. -/
def transferEventHash : Nat :=
  0xddf252ad1be2c89b69c2b068fc378daa952ba7f163c4a11628f55a4df523b3ef

/-- common.HexToAddress(topic.Hex()): a 32-byte topic word truncated to its
low-order 20 bytes (an Ethereum address). -/
def addrOfWord (w : Nat) : Nat := w % 2 ^ 160

/-- Hex rendering used to model common.Address.Hex() and common.Hash.Hex()
(transferEventTracker.go lines 193-195): a "0x"-prefixed hexadecimal
string.  Go additionally zero-pads to a fixed width and applies EIP-55
casing to addresses; no claim inspects the characters of these strings,
so the exact rendering is immaterial. -/
def hexStr (n : Nat) : String := "0x" ++ String.mk (Nat.toDigits 16 n)

/-- Result of decodeTransferLog.  `crash` is a Go runtime panic (index out
of range on delog.Topics).  The function's explicit error returns are
dead code for this input shape: abi.JSON on the constant all-indexed
Transfer ABI (lines 231-257) always succeeds, and UnpackIntoInterface
(line 271) succeeds for every data payload because the event has zero
non-indexed inputs — go-ethereum's Arguments.Unpack and Arguments.Copy
return nil when NonIndexed() is empty, for empty and non-empty data
alike.  Hence the only outcomes are `ok` and `crash`. -/
inductive DecodeOutcome where
  | ok (toAddr : Nat) (tokenId : Nat)
  | crash
deriving DecidableEq, Repr

/-- decodeTransferLog (transferEventTracker.go lines 230-281): after the
always-successful ABI parse and unpack, the code reads delog.Topics[1],
[2] and [3] unconditionally (lines 276-278) — it never checks the length
of Topics nor compares Topics[0] with the Transfer signature hash.  With
fewer than 4 topics the slice index panics; otherwise it returns
(to, tokenId) = (address of topics[2], topics[3]).  The data payload and
topics[0] play no part. -/
def decodeTransferLog (delog : RawLog) : DecodeOutcome :=
  if 4 ≤ delog.topics.length then
    DecodeOutcome.ok (addrOfWord (delog.topics.getD 2 0)) (delog.topics.getD 3 0)
  else
    DecodeOutcome.crash

/-- Per-log environment: the wall-clock value time.Now() yields while the
log is processed, and whether the Mongo UpdateOne call inside
CreateUpdateNFT fails for this log. -/
structure LogCtx where
  log : RawLog
  now : Nat
  upsertFails : Bool
deriving Repr

/-- Result of processing one log: `ok s e` is a normal return with the
store after the call and the error value returned to the caller (none =
nil); `crash` propagates a decode panic. -/
inductive StepOutcome where
  | ok (s : Store) (err : Option String)
  | crash
deriving DecidableEq, Repr

/-- The NFT document built at transferEventTracker.go lines 191-197:
NftID from BigIntToInt, OwnerAddress/ContractAddress/TxHash as hex
strings, TimeStamp = time.Now(); TokenUri is left at its zero value. -/
def nftOfLog (k : Int) (toAddr : Nat) (delog : RawLog) (now : Nat) : NFT :=
  { nftID := k
    ownerAddress := hexStr toAddr
    contractAddress := hexStr delog.address
    tokenUri := ""
    txHash := hexStr delog.txHash
    timeStamp := now }

/-- processTransferLog (transferEventTracker.go lines 176-228):
decode (a decode panic crashes the process; the decode-error branch at
lines 178-181 is unreachable, see DecodeOutcome), then BigIntToInt — a
conversion failure is returned to the caller with the store untouched —
then CreateUpdateNFT, whose failure is only logged (lines 201-204): the
function still falls through to `return nil` at line 227. -/
def processTransferLog (c : LogCtx) (s : Store) : StepOutcome :=
  match decodeTransferLog c.log with
  | DecodeOutcome.crash => StepOutcome.crash
  | DecodeOutcome.ok toAddr tokenId =>
    match BigIntToInt (Int.ofNat tokenId) with
    | Except.error e =>
      StepOutcome.ok s (some ("failed to convert tokenId to int: " ++ e))
    | Except.ok k =>
      let s1 := if c.upsertFails then s else
        CreateUpdateNFT (nftOfLog k toAddr c.log c.now) s
      StepOutcome.ok s1 none

/-- Outcome of a fetched batch: either every log was attempted (`done`)
or a decode panic killed the process part-way (`crash`), leaving the
store as it was at that point. -/
inductive BatchOutcome where
  | done (s : Store)
  | crash (s : Store)
deriving DecidableEq, Repr

/-- The per-batch loops at transferEventTracker.go lines 115-120 and
168-173: each log is passed to processTransferLog; a returned error is
only logged and the loop continues with the next log; a panic propagates
and ends the process. -/
def processBatch : List LogCtx → Store → BatchOutcome
  | [], s => BatchOutcome.done s
  | c :: cs, s =>
    match processTransferLog c s with
    | StepOutcome.crash => BatchOutcome.crash s
    | StepOutcome.ok s1 _ => processBatch cs s1

/-- The constant part of every ethereum.FilterQuery this tracker builds
(lines 102-107 and 155-160): the tracked contract address set and the
single-topic filter [[transferEventHash]]. -/
structure Tracker where
  contractAddrs : List Nat
deriving Repr

/-- ethereum.FilterQuery as built by this code: block range, address set,
topic filter (a single topics[0] alternative). -/
structure FilterQuery where
  fromBlock : Nat
  toBlock : Nat
  addresses : List Nat
  topic0 : Nat
deriving DecidableEq, Repr

/-- Building a filter query (lines 102-107 / 155-160): a pure struct
literal — no side effects, no failure path, no comparison of fromBlock
with toBlock. -/
def mkFilterQuery (t : Tracker) (fromBlock toBlock : Nat) : FilterQuery :=
  { fromBlock := fromBlock
    toBlock := toBlock
    addresses := t.contractAddrs
    topic0 := transferEventHash }

/-- Environment of one poll tick (or of the backfill): the result of the
HeaderByNumber call (none = error) and the result of the FilterLogs call
(none = error), each log paired with its per-log environment. -/
structure TickEnv where
  head : Option Nat
  logs : Option (List LogCtx)

/-- fetchNewLogs (transferEventTracker.go lines 147-174): look up the
chain head — on error, log and return; build the query with the caller's
fromBlock (the startup head, see TrackTransferEvents) and the fresh head
as toBlock — unconditionally, there is no empty-range or cursor check;
run FilterLogs — on error, log and return; process every returned log.
The first component is the query passed to FilterLogs (none when the
head lookup failed and no fetch was issued). -/
def fetchNewLogs (t : Tracker) (env : TickEnv) (fromBlock : Nat)
    (s : Store) : Option FilterQuery × BatchOutcome :=
  match env.head with
  | none => (none, BatchOutcome.done s)
  | some h =>
    let q := mkFilterQuery t fromBlock h
    match env.logs with
    | none => (some q, BatchOutcome.done s)
    | some lgs => (some q, processBatch lgs s)

/-- The ticker loop of TrackTransferEvents (lines 135-143) run for a
finite prefix of ticks: every tick calls fetchNewLogs with the same
`fromBlock` value — the loop never reassigns it — and a panic ends the
loop with the process.  Returns the queries issued and the outcome. -/
def runTicks (t : Tracker) (fromBlock : Nat) :
    List TickEnv → Store → List FilterQuery × BatchOutcome
  | [], s => ([], BatchOutcome.done s)
  | e :: es, s =>
    match fetchNewLogs t e fromBlock s with
    | (q, BatchOutcome.crash s1) => (q.toList, BatchOutcome.crash s1)
    | (q, BatchOutcome.done s1) =>
      let r := runTicks t fromBlock es s1
      (q.toList ++ r.1, r.2)

/-- Overall outcome of TrackTransferEvents over a finite trace:
`startupFailed` models the early error returns (header lookup or
historical FilterLogs failing, lines 95-113); `crashed` a decode panic;
`polling` the loop still running after the given ticks.  Each carries
the filter queries issued and the final store. -/
inductive RunOutcome where
  | startupFailed
  | crashed (queries : List FilterQuery) (s : Store)
  | polling (queries : List FilterQuery) (s : Store)
deriving DecidableEq, Repr

/-- TrackTransferEvents (transferEventTracker.go lines 81-145), with the
environment-variable parsing abstracted into `startBlock` and the RPC
responses into `env0`/`envs`: fetch the head (latestBlock, line 100),
run the backfill query [startBlock, latestBlock], process every
historical log, then enter the ticker loop — which passes the
now-frozen `latestBlock` as fromBlock to fetchNewLogs on every tick
(line 138); no variable playing the role of a cursor is ever updated. -/
def TrackTransferEvents (t : Tracker) (startBlock : Nat) (env0 : TickEnv)
    (envs : List TickEnv) (s0 : Store) : RunOutcome :=
  match env0.head with
  | none => RunOutcome.startupFailed
  | some latestBlock =>
    let q0 := mkFilterQuery t startBlock latestBlock
    match env0.logs with
    | none => RunOutcome.startupFailed
    | some historicalLogs =>
      match processBatch historicalLogs s0 with
      | BatchOutcome.crash s => RunOutcome.crashed [q0] s
      | BatchOutcome.done s =>
        match runTicks t latestBlock envs s with
        | (qs, BatchOutcome.crash s1) => RunOutcome.crashed (q0 :: qs) s1
        | (qs, BatchOutcome.done s1) => RunOutcome.polling (q0 :: qs) s1

/-- The nftId values of the stored documents, in store order. -/
def keys (s : Store) : List Int := s.map (fun r => r.nftId)

/-- Number of stored documents whose key is `k`. -/
def keyCount (k : Int) (s : Store) : Nat :=
  (s.filter (fun r => r.nftId == k)).length

/-- A sequence of upserts applied in order, as the tracker does
(one CreateUpdateNFT call per successfully decoded log). -/
def applyAll (facts : List NFT) (s : Store) : Store :=
  facts.foldl (fun t f => CreateUpdateNFT f t) s

lemma setFields_nftId (nft : NFT) (r : OwnershipRecord) :
    (setFields nft r).nftId = r.nftId := rfl

lemma setFields_setFields (nft : NFT) (r : OwnershipRecord) :
    setFields nft (setFields nft r) = setFields nft r := rfl

lemma setFields_eq_insertDoc (nft : NFT) (r : OwnershipRecord)
    (h : r.nftId = nft.nftID) : setFields nft r = insertDoc nft := by
  cases r
  simp_all [setFields, insertDoc]

lemma createUpdate_cons_eq (nft : NFT) (r : OwnershipRecord) (rs : Store)
    (h : r.nftId = nft.nftID) :
    CreateUpdateNFT nft (r :: rs) = setFields nft r :: rs := by
  simp [CreateUpdateNFT, List.any_cons, h, updateFirst]

lemma createUpdate_cons_ne (nft : NFT) (r : OwnershipRecord) (rs : Store)
    (h : ¬ r.nftId = nft.nftID) :
    CreateUpdateNFT nft (r :: rs) = r :: CreateUpdateNFT nft rs := by
  by_cases h2 : rs.any (fun x => x.nftId == nft.nftID) = true <;>
    simp [CreateUpdateNFT, List.any_cons, h, h2, updateFirst]

lemma createUpdate_nil (nft : NFT) :
    CreateUpdateNFT nft [] = [insertDoc nft] := rfl

lemma createUpdate_square (nft : NFT) (s : Store) :
    CreateUpdateNFT nft (CreateUpdateNFT nft s) = CreateUpdateNFT nft s := by
  induction s with
  | nil =>
    rw [createUpdate_nil, createUpdate_cons_eq nft (insertDoc nft) [] rfl,
      setFields_eq_insertDoc nft (insertDoc nft) rfl]
  | cons r rs ih =>
    by_cases h : r.nftId = nft.nftID
    · rw [createUpdate_cons_eq nft r rs h,
        createUpdate_cons_eq nft (setFields nft r) rs (by rw [setFields_nftId, h]),
        setFields_setFields]
    · rw [createUpdate_cons_ne nft r rs h, createUpdate_cons_ne nft r _ h, ih]

lemma keyCount_cons_eq (k : Int) (r : OwnershipRecord) (rs : Store)
    (h : r.nftId = k) : keyCount k (r :: rs) = keyCount k rs + 1 := by
  simp [keyCount, h]

lemma keyCount_cons_ne (k : Int) (r : OwnershipRecord) (rs : Store)
    (h : ¬ r.nftId = k) : keyCount k (r :: rs) = keyCount k rs := by
  simp [keyCount, h]

lemma filter_createUpdate (nft : NFT) (s : Store)
    (hs : keyCount nft.nftID s ≤ 1) :
    (CreateUpdateNFT nft s).filter (fun r => r.nftId == nft.nftID)
      = [insertDoc nft] := by
  induction s with
  | nil => simp [createUpdate_nil, List.filter, insertDoc]
  | cons r rs ih =>
    by_cases h : r.nftId = nft.nftID
    · rw [createUpdate_cons_eq nft r rs h]
      have h0 : keyCount nft.nftID rs = 0 := by
        rw [keyCount_cons_eq nft.nftID r rs h] at hs
        omega
      have hrs : rs.filter (fun x => x.nftId == nft.nftID) = [] :=
        List.length_eq_zero.mp h0
      rw [setFields_eq_insertDoc nft r h]
      simp [List.filter_cons, hrs, insertDoc]
    · rw [createUpdate_cons_ne nft r rs h]
      have hs2 : keyCount nft.nftID rs ≤ 1 := by
        rw [keyCount_cons_ne nft.nftID r rs h] at hs
        exact hs
      simp [List.filter_cons, h, ih hs2]

lemma keys_cons (r : OwnershipRecord) (s : Store) :
    keys (r :: s) = r.nftId :: keys s := rfl

lemma keys_createUpdate (f : NFT) (s : Store) :
    keys (CreateUpdateNFT f s) =
      if s.any (fun r => r.nftId == f.nftID) then keys s
      else keys s ++ [f.nftID] := by
  induction s with
  | nil => simp [createUpdate_nil, keys, insertDoc]
  | cons r rs ih =>
    by_cases h : r.nftId = f.nftID
    · rw [createUpdate_cons_eq f r rs h, keys_cons, keys_cons, setFields_nftId]
      have hc : ((r :: rs).any fun x => x.nftId == f.nftID) = true := by
        simp [List.any_cons, h]
      rw [if_pos hc]
    · rw [createUpdate_cons_ne f r rs h, keys_cons, ih, keys_cons]
      by_cases h2 : rs.any (fun x => x.nftId == f.nftID) = true
      · have hc : ((r :: rs).any fun x => x.nftId == f.nftID) = true := by
          simp [List.any_cons, h2]
        rw [if_pos h2, if_pos hc]
      · have hc : ¬ ((r :: rs).any fun x => x.nftId == f.nftID) = true := by
          simp [List.any_cons, h2, h]
        rw [if_neg h2, if_neg hc, List.cons_append]

lemma nodup_keys_createUpdate (f : NFT) (s : Store)
    (h : (keys s).Nodup) : (keys (CreateUpdateNFT f s)).Nodup := by
  rw [keys_createUpdate]
  by_cases hc : s.any (fun r => r.nftId == f.nftID) = true
  · simpa [hc] using h
  · have hc2 : s.any (fun r => r.nftId == f.nftID) = false := by
      cases hAny : s.any (fun r => r.nftId == f.nftID)
      · rfl
      · exact absurd hAny hc
    have hmem : f.nftID ∉ keys s := by
      intro hmem
      rw [keys, List.mem_map] at hmem
      obtain ⟨r, hr, hEq⟩ := hmem
      have hfalse := List.any_eq_false.mp hc2 r hr
      rw [hEq] at hfalse
      simp at hfalse
    simp [hc, List.nodup_append, h, hmem]

lemma nodup_keys_applyAll :
    ∀ (facts : List NFT) (s : Store),
      (keys s).Nodup → (keys (applyAll facts s)).Nodup
  | [], _, h => h
  | f :: fs, s, h =>
    nodup_keys_applyAll fs (CreateUpdateNFT f s) (nodup_keys_createUpdate f s h)

/-- Claim C6: the ownership upsert is idempotent — applying the identical
NFT fact n+1 times (any number ≥ 1) to any store leaves the same final
store, all document fields included, as applying it exactly once. -/
theorem createUpdateNFT_idempotent (nft : NFT) (s : Store) (n : Nat) :
    (CreateUpdateNFT nft)^[n + 1] s = CreateUpdateNFT nft s := by
  induction n with
  | zero => simp
  | succ m ih =>
    rw [Function.iterate_succ_apply', ih, createUpdate_square]

/-- Claim C7: for two facts with the same tokenId, applied in sequence to
any store holding at most one document for that key (the unique index of
CreateIndexes, nftModel.go lines 35-50, guarantees this for every real
store), the store ends with exactly one document for that key, and its
ownerAddress, contractAddress, txHash and timeStamp are those of the
most recently applied fact. -/
theorem createUpdateNFT_last_write_wins (f1 f2 : NFT) (s : Store)
    (hk : f1.nftID = f2.nftID)
    (hto : f1.ownerAddress ≠ f2.ownerAddress)
    (hs : keyCount f2.nftID s ≤ 1) :
    (CreateUpdateNFT f2 (CreateUpdateNFT f1 s)).filter
      (fun r => r.nftId == f2.nftID) = [insertDoc f2] := by
  have h1 : keyCount f2.nftID (CreateUpdateNFT f1 s) ≤ 1 := by
    have hf := filter_createUpdate f1 s (by rw [hk]; exact hs)
    unfold keyCount
    rw [← hk, hf]
    simp
  exact filter_createUpdate f2 (CreateUpdateNFT f1 s) h1

/-- Witness for C7 at a concrete input: same key 1, owners "0xa" then
"0xb", starting from the empty store. -/
theorem createUpdateNFT_last_write_wins_witness :
    (CreateUpdateNFT ⟨1, "0xb", "0xc", "", "0xt2", 5⟩
        (CreateUpdateNFT ⟨1, "0xa", "0xc", "", "0xt1", 4⟩ [])).filter
      (fun r => r.nftId == (1 : Int))
      = [insertDoc ⟨1, "0xb", "0xc", "", "0xt2", 5⟩] :=
  createUpdateNFT_last_write_wins
    ⟨1, "0xa", "0xc", "", "0xt1", 4⟩ ⟨1, "0xb", "0xc", "", "0xt2", 5⟩ []
    rfl (by decide) (by decide)

/-- Claim C8: in every store reachable from the empty store by upserts the
keys are pairwise distinct (at most one document per tokenId), and a
single upsert never rewrites any existing document's nftId: the key list
is unchanged when the key is present and gains exactly the new key at
first insertion. -/
theorem store_invariant_unique_key :
    (∀ facts : List NFT, (keys (applyAll facts [])).Nodup)
    ∧ ∀ (f : NFT) (s : Store),
        keys (CreateUpdateNFT f s) =
          if s.any (fun r => r.nftId == f.nftID) then keys s
          else keys s ++ [f.nftID] :=
  ⟨fun facts => nodup_keys_applyAll facts [] (by simp [keys]),
   keys_createUpdate⟩

/-- Example raw logs used by the concrete evaluations: a well-shaped
Transfer log (4 topics), a 3-topic log (the shape of an ERC-20 Transfer,
which shares the same signature hash), and a second well-shaped log. -/
def exLog4 : RawLog :=
  { address := 7, topics := [transferEventHash, 1, 2, 3], data := [], txHash := 9 }

/-- A raw log with only three topics. -/
def exLog3 : RawLog :=
  { address := 7, topics := [transferEventHash, 1, 2], data := [], txHash := 9 }

/-- A second well-shaped raw log (tokenId 5, receiver 4). -/
def exLog4b : RawLog :=
  { address := 7, topics := [transferEventHash, 1, 4, 5], data := [], txHash := 9 }

/-- Claim C1 (refuted; evaluation of the code at the failing input):
startup head 100, backfill from block 50, then two successful poll ticks
with chain heads 105 and 110.  The queries issued are [50,100] (backfill),
[100,105] and [100,110]: every tick's fromBlock is the frozen startup
head — not cursor+1, the cursor is never advanced to the tick's head —
so blocks 100..105 are fetched by both ticks (and block 100 by the
backfill as well). -/
theorem poll_refetches_overlapping_ranges :
    TrackTransferEvents { contractAddrs := [10] } 50
        { head := some 100, logs := some [] }
        [ { head := some 105, logs := some [] },
          { head := some 110, logs := some [] } ] []
      = RunOutcome.polling
          [ mkFilterQuery { contractAddrs := [10] } 50 100,
            mkFilterQuery { contractAddrs := [10] } 100 105,
            mkFilterQuery { contractAddrs := [10] } 100 110 ] [] := rfl

/-- Claim C2 (refuted; evaluation of the code at the failing inputs):
a log with fewer than 4 topics makes the decoder panic (index out of
range) instead of failing with a DecodeError; a log with exactly 4
topics whose topics[0] is 0 (not the Transfer signature hash) decodes to
a fact built from topics[2] and topics[3] with no error; a log with 5
topics decodes as well.  No shape check exists. -/
theorem decode_crashes_and_skips_topic0_check :
    decodeTransferLog exLog3 = DecodeOutcome.crash
    ∧ decodeTransferLog { address := 7, topics := [0, 1, 2 ^ 160 + 5, 3], data := [], txHash := 9 }
        = DecodeOutcome.ok 5 3
    ∧ decodeTransferLog { address := 7, topics := [transferEventHash, 1, 2, 3, 4], data := [], txHash := 9 }
        = DecodeOutcome.ok 2 3 :=
  ⟨rfl, rfl, rfl⟩

/-- Counterexample to claim C3: with the loop's fromBlock at 100 and the
tick's head lookup returning 90, fromBlock > toBlock, yet a filter query
is still issued (first component is some query) — the tick is not
skipped, and the same holds when the fromBlock has reached the head. -/
theorem fetch_issued_on_empty_range :
    (fetchNewLogs { contractAddrs := [10] }
        { head := some 90, logs := some [] } 100 []).1
      = some (mkFilterQuery { contractAddrs := [10] } 100 90)
    ∧ 90 < 100 := ⟨rfl, by decide⟩

/-- Claim C3 as amended: building the filter query is a pure struct
construction with no side effects and no failure path, and there is no
empty-range check at all — whenever the tick's head lookup succeeds, the
fetch is issued with the caller's fromBlock and the observed head,
regardless of whether fromBlock > toBlock or fromBlock has reached the
head. -/
theorem fetch_always_issued (t : Tracker) (env : TickEnv) (fromBlock : Nat)
    (s : Store) (h : Nat) (hh : env.head = some h) :
    (fetchNewLogs t env fromBlock s).1
      = some (mkFilterQuery t fromBlock h) := by
  unfold fetchNewLogs
  rw [hh]
  cases henv : env.logs <;> simp

/-- Witness for the amended C3 at a concrete input: fromBlock equal to the
observed head (the range is empty, the fetch is still issued), with the
FilterLogs call itself failing. -/
theorem fetch_always_issued_witness :
    (fetchNewLogs { contractAddrs := [10] }
        { head := some 100, logs := none } 100 []).1
      = some (mkFilterQuery { contractAddrs := [10] } 100 100) :=
  fetch_always_issued { contractAddrs := [10] }
    { head := some 100, logs := none } 100 [] 100 rfl

/-- Claim C4: a log whose topics are exactly [transferEventHash, fromT,
toT, tokT] decodes, for every data payload, to the fact whose to-address
is the address truncation of topics[2] and whose tokenId is topics[3];
the data payload neither influences the result nor can make the decode
fail. -/
theorem decode_ok_from_topics (fromT toT tokT : Nat) (data : List Nat)
    (addr txh : Nat) :
    decodeTransferLog { address := addr, topics := [transferEventHash, fromT, toT, tokT], data := data, txHash := txh }
      = DecodeOutcome.ok (addrOfWord toT) tokT := rfl

/-- Claim C5: for every non-negative token identifier, BigIntToInt returns
exactly that value when it fits the 64-bit int of the store key, and the
out-of-range error — never a truncated value — when it does not. -/
theorem bigIntToInt_exact_or_error (b : Int) (hb : 0 ≤ b) :
    BigIntToInt b =
      if b ≤ int64Max then Except.ok b
      else Except.error "big.Int value is out of int range" := by
  by_cases h : b ≤ int64Max
  · rw [if_pos h]
    have hmin : int64Min ≤ b := le_trans (by decide) hb
    rw [BigIntToInt, if_pos ⟨hmin, h⟩, if_pos]
    left
    unfold goBitNot
    omega
  · rw [if_neg h, BigIntToInt, if_neg]
    intro hc
    exact h hc.2

/-- Witness for C5 at concrete inputs: 7 fits and is returned exactly;
2^100 does not fit and is rejected. -/
theorem bigIntToInt_exact_or_error_witness :
    BigIntToInt 7 = Except.ok 7
    ∧ BigIntToInt (2 ^ 100)
        = Except.error "big.Int value is out of int range" := by
  constructor
  · rw [bigIntToInt_exact_or_error 7 (by decide)]
    rw [if_pos (by decide)]
  · rw [bigIntToInt_exact_or_error (2 ^ 100) (by decide)]
    rw [if_neg (by decide)]

/-- Claim C9 (refuted; evaluation of the code at the failing input): a
batch of three logs whose second has only 3 topics (the shape of an
ERC-20 Transfer, which carries the same signature hash) is processed as:
log 1 upserted, then the decode of log 2 panics and kills the process —
log 2 is not merely dropped, and log 3 is never processed.  The final
store holds only log 1's record. -/
theorem batch_crash_on_short_topics :
    processBatch
        [ { log := exLog4, now := 42, upsertFails := false },
          { log := exLog3, now := 43, upsertFails := false },
          { log := exLog4b, now := 44, upsertFails := false } ] []
      = BatchOutcome.crash
          [ { nftId := 3, ownerAddress := "0x2", contractAddress := "0x7", txHash := "0x9", timeStamp := 42 } ] := rfl

/-- Claim C10: when decode and the token-id conversion succeed,
processTransferLog reports success (a nil error) to its caller whatever
the store does: with the upsert failing the store is left unchanged and
the returned error is still none, so the caller cannot distinguish a
stored fact from one dropped by a store failure; only the decode and
range-conversion branches return errors. -/
theorem upsert_failure_reported_as_success (c : LogCtx) (s : Store)
    (toAddr tok : Nat) (k : Int)
    (hd : decodeTransferLog c.log = DecodeOutcome.ok toAddr tok)
    (hc : BigIntToInt (tok : Int) = Except.ok k) :
    processTransferLog c s =
      StepOutcome.ok
        (if c.upsertFails then s
         else CreateUpdateNFT (nftOfLog k toAddr c.log c.now) s)
        none := by
  simp [processTransferLog, hd, hc]

/-- Witness for C10 at a concrete input: a well-shaped log with the Mongo
upsert failing — the store stays empty and the reported error is none. -/
theorem upsert_failure_reported_as_success_witness :
    processTransferLog { log := exLog4, now := 42, upsertFails := true } []
      = StepOutcome.ok [] none := by
  have h := upsert_failure_reported_as_success
    { log := exLog4, now := 42, upsertFails := true } [] 2 3 3 rfl rfl
  simpa using h

end NftTracker
